import Mathlib

/-!
Shallow embedding of `src/mc/Connection.cpp` (the `Minecraft::Connection`
class of mclib): protocol state, codec strategies, the frame assembler
(`Connection::CreatePacket`), the poll cycle, the authentication
orchestrator (`Connection::AuthenticateClient`), the packet handlers and
`Connection::Connect` / `Connection::SendPacket`.

Bytes are `List Nat`.  External collaborators that are not part of the
repository (AES cipher, zlib, DNS, TCP sockets, the Yggdrasil identity
service, packet serialization) are abstracted as parameters collected in
an `Externals` record; their outcomes (authentication results, socket
connect results) are inputs to the modelled functions.
-/

/-- Protocol states used by the connection (Protocol::State in the code;
the spec lists Handshake, Login, Play with Status omitted from core scope). -/
inductive ProtocolState
| Handshake
| Status
| Login
| Play
deriving DecidableEq, Repr

/-- Socket status as exposed by the transport (Network::Socket::Status);
the code only discriminates Connected from everything else. -/
inductive SocketStatus
| Connected
| Disconnected
deriving DecidableEq, Repr

/-- External collaborators of Connection.cpp that live outside src/:
cryptographic primitives, compression, packet serialization helpers,
the DNS resolver and the TCP socket connect outcome.  Each is an
arbitrary function; theorems quantify over them. -/
structure Externals where
  aesEncrypt : List Nat → List Nat → List Nat
  aesDecrypt : List Nat → List Nat → List Nat
  zCompress : Nat → List Nat → List Nat
  zDecompress : Nat → List Nat → Nat → List Nat
  makeSharedSecret : String → String → List Nat
  responsePacketBytes : String → String → List Nat
  socketConnect : String → Nat → Bool
  dnsResolve : String → List String

/-- Encryption strategy (EncryptionStrategyNone / EncryptionStrategyAES in
the code).  The AES variant carries the negotiated shared secret. -/
inductive EncryptionStrategy
| strategyNone
| strategyAES (secret : List Nat)
deriving DecidableEq, Repr

/-- Modelled from the spec: the disabled encryption strategy is the identity
transform; the AES strategy applies the external cipher keyed by the shared
secret (EncryptionStrategyNone / EncryptionStrategyAES are not under src/). -/
def EncryptionStrategy.encryptFn (ext : Externals) : EncryptionStrategy → List Nat → List Nat
| .strategyNone => fun bs => bs
| .strategyAES k => ext.aesEncrypt k

/-- Modelled from the spec: decryption side of the encryption strategy,
identity when disabled. -/
def EncryptionStrategy.decryptFn (ext : Externals) : EncryptionStrategy → List Nat → List Nat
| .strategyNone => fun bs => bs
| .strategyAES k => ext.aesDecrypt k

/-- Compression strategy (CompressionNone / CompressionZ in the code).
The zlib variant carries the threshold from the SetCompression packet. -/
inductive CompressionStrategy
| compressionNone
| compressionZ (threshold : Nat)
deriving DecidableEq, Repr

/-- Modelled from the spec: outbound compression, identity when disabled
(CompressionNone / CompressionZ are not under src/). -/
def CompressionStrategy.compressFn (ext : Externals) : CompressionStrategy → List Nat → List Nat
| .compressionNone => fun bs => bs
| .compressionZ t => ext.zCompress t

/-- Modelled from the spec: per-frame decompression applied to the wire
payload of a frame together with its declared length, identity when
disabled. -/
def CompressionStrategy.decompressFn (ext : Externals) : CompressionStrategy → List Nat → Nat → List Nat
| .compressionNone => fun bs _ => bs
| .compressionZ t => fun bs len => ext.zDecompress t bs len

/-- Modelled from the spec: a DataBuffer is an ordered byte sequence with a
read cursor (PendingBuffer in the spec, `0 <= cursor <= size`); the
DataBuffer class itself is not under src/. -/
structure DataBuffer where
  data : List Nat
  readOffset : Nat
deriving DecidableEq, Repr

/-- Bytes not yet consumed by the read cursor (DataBuffer::GetRemaining). -/
def DataBuffer.remaining (b : DataBuffer) : Nat := b.data.length - b.readOffset

/-- DataBuffer::GetSize. -/
def DataBuffer.size (b : DataBuffer) : Nat := b.data.length

/-- DataBuffer::IsFinished: the read cursor has consumed the whole buffer. -/
def DataBuffer.isFinished (b : DataBuffer) : Bool := b.data.length ≤ b.readOffset

/-- Modelled from the spec: VarInt decoding (7 data bits per byte, high bit
set = continuation, least-significant group first); returns the value and
the number of bytes consumed, or `none` when no terminating byte is present
in the available bytes ("incomplete", the std::out_of_range path in the
code); the VarInt class is not under src/. -/
def readVarInt : List Nat → Option (Nat × Nat)
| [] => none
| byte :: rest =>
  if byte % 256 < 128 then some (byte % 128, 1)
  else match readVarInt rest with
       | none => none
       | some (v, k) => some (byte % 128 + 128 * v, k + 1)

/-- Result of one frame-extraction step: either no complete frame is
available, or a frame was extracted, carrying the decompressed payload
handed to the packet factory and the declared wire length. -/
inductive FrameStep
| noFrame
| frame (decoded : List Nat) (declaredLen : Nat)
deriving DecidableEq, Repr

/-- Connection::CreatePacket(DataBuffer&), lines 144-166: record the read
offset, decode the length varint (on incomplete varint the offset is not
advanced and no frame is produced), rewind and stop when fewer than
`length` bytes remain, otherwise consume exactly `length` wire bytes,
decompress them and hand the result with the declared length to the packet
factory. -/
def createPacket (decompress : List Nat → Nat → List Nat) (b : DataBuffer) : FrameStep × DataBuffer :=
  match readVarInt (b.data.drop b.readOffset) with
  | none => (FrameStep.noFrame, b)
  | some (len, k) =>
    let b1 : DataBuffer := ⟨b.data, b.readOffset + k⟩
    if b1.remaining < len then (FrameStep.noFrame, b)
    else
      let payload := (b1.data.drop b1.readOffset).take len
      (FrameStep.frame (decompress payload len) len, ⟨b.data, b1.readOffset + len⟩)

/-- Outcome of one Yggdrasil call: a boolean result or a thrown
YggdrasilException carrying a message. -/
inductive YggResult
| ok (b : Bool)
| exn (msg : String)
deriving DecidableEq, Repr

/-- Listener events and transport-side actions emitted by the connection. -/
inductive Event
| socketStateChange (s : SocketStatus)
| login (success : Bool)
| authEvent (success : Bool) (error : String)
| sent (bytes : List Nat)
| dispatched (decoded : List Nat) (declaredLen : Nat)
| socketDisconnect
deriving DecidableEq, Repr

/-- Result of Connection::AuthenticateClient: the aggregate verdict, the
final error string, the identity-service calls that were performed (in
order) and the listener events emitted. -/
structure AuthOutcome where
  success : Bool
  error : String
  calls : List String
  events : List Event
deriving DecidableEq, Repr

/-- Connection::AuthenticateClient, lines 63-88: start with success=true
and empty error; call Yggdrasil::Authenticate (a false result records
"Failed to authenticate", an exception records its message); then always
call Yggdrasil::JoinServer (a false result records "Failed to join server
through Yggdrasil.", an exception records its message), overwriting any
earlier error; finally notify OnAuthentication once with the aggregate
verdict and the final error. -/
def authenticateClient (authResult joinResult : YggResult) : AuthOutcome :=
  let s0 : Bool × String := (true, "")
  let s1 : Bool × String :=
    match authResult with
    | .ok true => s0
    | .ok false => (false, "Failed to authenticate")
    | .exn m => (false, m)
  let s2 : Bool × String :=
    match joinResult with
    | .ok true => s1
    | .ok false => (false, "Failed to join server through Yggdrasil.")
    | .exn m => (false, m)
  { success := s2.1
    error := s2.2
    calls := ["Authenticate", "JoinServer"]
    events := [Event.authEvent s2.1 s2.2] }

/-- Mutable handler-visible session state of the Connection (protocol
state, encrypter, compressor).  The pending buffer is kept apart because
no packet handler in Connection.cpp touches m_HandleBuffer. -/
structure HandlerState where
  protocolState : ProtocolState
  encrypter : EncryptionStrategy
  compressor : CompressionStrategy
deriving DecidableEq, Repr

/-- The Connection state relevant to the poll cycle: handler state plus
the pending buffer m_HandleBuffer. -/
structure Conn where
  hs : HandlerState
  handleBuffer : DataBuffer
deriving DecidableEq, Repr

/-- Decoding a varint consumes at least one byte. -/
theorem readVarInt_pos (l : List Nat) (v k : Nat) (h : readVarInt l = some (v, k)) : 1 ≤ k := by
  cases l with
  | nil => simp [readVarInt] at h
  | cons b rest =>
    unfold readVarInt at h
    split at h
    · simp only [Option.some.injEq, Prod.mk.injEq] at h
      omega
    · cases hr : readVarInt rest with
      | none => rw [hr] at h; simp at h
      | some p =>
        obtain ⟨v0, k0⟩ := p
        rw [hr] at h
        simp only [Option.some.injEq, Prod.mk.injEq] at h
        omega

/-- Decoding a varint consumes at most the available bytes. -/
theorem readVarInt_le (l : List Nat) (v k : Nat) (h : readVarInt l = some (v, k)) : k ≤ l.length := by
  induction l generalizing v k with
  | nil => simp [readVarInt] at h
  | cons b rest ih =>
    unfold readVarInt at h
    split at h
    · simp only [Option.some.injEq, Prod.mk.injEq] at h
      simp only [List.length_cons]
      omega
    · cases hr : readVarInt rest with
      | none => rw [hr] at h; simp at h
      | some p =>
        obtain ⟨v0, k0⟩ := p
        rw [hr] at h
        simp only [Option.some.injEq, Prod.mk.injEq] at h
        have := ih v0 k0 hr
        simp only [List.length_cons]
        omega

/-- When a frame is extracted, the buffer data is unchanged and the read
cursor advances, staying within the buffer. -/
theorem createPacket_frame (d : List Nat → Nat → List Nat) (b : DataBuffer)
    (pl : List Nat) (len : Nat) (b1 : DataBuffer)
    (h : createPacket d b = (FrameStep.frame pl len, b1)) :
    b1.data = b.data ∧ b.readOffset < b1.readOffset ∧ b1.readOffset ≤ b.data.length := by
  unfold createPacket at h
  cases hv : readVarInt (b.data.drop b.readOffset) with
  | none => rw [hv] at h; simp at h
  | some p =>
    obtain ⟨len0, k⟩ := p
    rw [hv] at h
    simp only at h
    split at h
    · simp at h
    · rename_i hrem
      simp only [Prod.mk.injEq, FrameStep.frame.injEq] at h
      obtain ⟨⟨hpl, hlen⟩, hb1⟩ := h
      have hk1 : 1 ≤ k := readVarInt_pos _ _ _ hv
      have hkle : k ≤ (b.data.drop b.readOffset).length := readVarInt_le _ _ _ hv
      simp only [List.length_drop] at hkle
      simp only [DataBuffer.remaining, not_lt] at hrem
      have hoff : b.readOffset ≤ b.data.length := by
        by_contra hc
        push_neg at hc
        have : b.data.drop b.readOffset = [] := List.drop_eq_nil_of_le (le_of_lt hc)
        rw [this] at hv
        simp [readVarInt] at hv
      subst hb1
      refine ⟨rfl, ?_, ?_⟩ <;> simp only [] <;> omega

/-- When no frame is extracted, the buffer is returned unchanged (the
cursor sits at its pre-read position). -/
theorem createPacket_noFrame (d : List Nat → Nat → List Nat) (b : DataBuffer) (b1 : DataBuffer)
    (h : createPacket d b = (FrameStep.noFrame, b1)) : b1 = b := by
  unfold createPacket at h
  cases hv : readVarInt (b.data.drop b.readOffset) with
  | none => rw [hv] at h; simp only [Prod.mk.injEq] at h; exact h.2.symm
  | some p =>
    obtain ⟨len0, k⟩ := p
    rw [hv] at h
    simp only at h
    split at h
    · simp only [Prod.mk.injEq] at h; exact h.2.symm
    · simp at h

/-- Connection::CreatePacket() frame-assembly do-while loop, lines
184-196: extract a frame, dispatch it (dispatch is the external
PacketDispatcher routing to the registered handlers; it may update the
handler state but, as in the source, never the pending buffer), and
repeat while the buffer is not finished and non-empty; a `nullptr` from
the inner CreatePacket breaks the loop. -/
def frameLoop (ext : Externals)
    (dispatch : HandlerState → List Nat → Nat → HandlerState × List Event)
    (hs : HandlerState) (b : DataBuffer) : HandlerState × DataBuffer × List Event :=
  match hcp : createPacket (hs.compressor.decompressFn ext) b with
  | (FrameStep.noFrame, b1) => (hs, b1, [])
  | (FrameStep.frame decoded len, b1) =>
    let p := dispatch hs decoded len
    if h : b1.readOffset < b1.data.length ∧ 0 < b1.data.length then
      let q := frameLoop ext dispatch p.1 b1
      (q.1, q.2.1, Event.dispatched decoded len :: p.2 ++ q.2.2)
    else (p.1, b1, Event.dispatched decoded len :: p.2)
termination_by b.data.length - b.readOffset
decreasing_by
  have hfr := createPacket_frame (hs.compressor.decompressFn ext) b decoded len b1 hcp
  obtain ⟨hdata, hlt, hle⟩ := hfr
  rw [hdata] at h ⊢
  omega

/-- Buffer handling after the loop, lines 198-201: a fully consumed
buffer is reset to empty; otherwise, when the cursor moved, the buffer is
replaced by its unconsumed suffix with the cursor at zero. -/
def compactBuffer (b : DataBuffer) : DataBuffer :=
  if b.isFinished then ⟨[], 0⟩
  else if b.readOffset ≠ 0 then ⟨b.data.drop b.readOffset, 0⟩
  else b

/-- The pending buffer after appending the decrypted received bytes
(m_HandleBuffer << m_Encrypter->Decrypt(buffer), line 180). -/
def pollInitBuffer (ext : Externals) (c : Conn) (recv : List Nat) : DataBuffer :=
  ⟨c.handleBuffer.data ++ c.hs.encrypter.decryptFn ext recv, c.handleBuffer.readOffset⟩

/-- The frame-assembly loop as run by one poll cycle, on the appended
buffer. -/
def pollLoop (ext : Externals)
    (dispatch : HandlerState → List Nat → Nat → HandlerState × List Event)
    (c : Conn) (recv : List Nat) : HandlerState × DataBuffer × List Event :=
  frameLoop ext dispatch c.hs (pollInitBuffer ext c recv)

/-- Connection::CreatePacket(), lines 168-202 (the poll cycle): receive
`recv` bytes and observe the socket status; on a non-connected status
emit a socket-state-change and stop; on zero received bytes stop with no
effect; otherwise append the decrypted bytes to the pending buffer, run
the frame-assembly loop, and compact the buffer. -/
def pollStep (ext : Externals)
    (dispatch : HandlerState → List Nat → Nat → HandlerState × List Event)
    (c : Conn) (recv : List Nat) (status : SocketStatus) : Conn × List Event :=
  if status ≠ SocketStatus.Connected then (c, [Event.socketStateChange status])
  else if recv.length = 0 then (c, [])
  else
    let r := pollLoop ext dispatch c recv
    (⟨r.1, compactBuffer r.2.1⟩, r.2.2)

/-- The bytes handed to the transport by Connection::SendPacket, lines
217-223: the serialized packet, compressed by the current compression
strategy, then encrypted by the current encryption strategy. -/
def sendPacketBytes (ext : Externals) (e : EncryptionStrategy) (comp : CompressionStrategy)
    (serialized : List Nat) : List Nat :=
  e.encryptFn ext (comp.compressFn ext serialized)

/-- Connection::SendPacket as an event: hand the transformed bytes to the
transport (m_Socket->Send). -/
def sendPacket (ext : Externals) (hs : HandlerState) (serialized : List Nat) : List Event :=
  [Event.sent (sendPacketBytes ext hs.encrypter hs.compressor serialized)]

/-- Connection::HandlePacket(EncryptionRequestPacket*), lines 90-103:
build the AES encrypter (its shared secret derived from the server public
key and verify token) and the encryption response packet, run
AuthenticateClient, send the response with the still-current (old)
strategies, and finally replace the encrypter by the new AES one. -/
def handleEncryptionRequest (ext : Externals) (hs : HandlerState)
    (pubkey verify : String) (authResult joinResult : YggResult) : HandlerState × List Event :=
  let secret := ext.makeSharedSecret pubkey verify
  let encResp := ext.responsePacketBytes pubkey verify
  let auth := authenticateClient authResult joinResult
  ({ hs with encrypter := EncryptionStrategy.strategyAES secret },
   auth.events ++ sendPacket ext hs encResp)

/-- Connection::HandlePacket(DisconnectPacket*), lines 54-61: disconnect
the socket, notify OnSocketStateChange with the post-disconnect status
(modelled from the spec: the transport status after disconnect() is
Disconnected; TCPSocket is not under src/), and notify OnLogin(false)
exactly when the protocol state is not Play. -/
def handleDisconnect (hs : HandlerState) : HandlerState × List Event :=
  (hs,
   Event.socketDisconnect :: Event.socketStateChange SocketStatus.Disconnected ::
   (if hs.protocolState ≠ ProtocolState.Play then [Event.login false] else []))

/-- Connection::HandlePacket(LoginSuccessPacket*), lines 105-109. -/
def handleLoginSuccess (hs : HandlerState) : HandlerState × List Event :=
  ({ hs with protocolState := ProtocolState.Play }, [Event.login true])

/-- Connection::HandlePacket(SetCompressionPacket*), lines 111-114. -/
def handleSetCompression (hs : HandlerState) (maxPacketSize : Nat) : HandlerState × List Event :=
  ({ hs with compressor := CompressionStrategy.compressionZ maxPacketSize }, [])

/-- Outcome of Connection::Connect: the returned boolean, the emitted
events, the addresses on which a socket connect was attempted (in
order), and whether the DNS resolver was consulted. -/
structure ConnectResult where
  result : Bool
  events : List Event
  attempts : List String
  usedDns : Bool
deriving DecidableEq, Repr

/-- The for-loop of Connection::Connect, lines 130-135: attempt each
resolved address in order, stopping at the first success. -/
def tryAddrs (ext : Externals) (port : Nat) : List String → Bool × List String
| [] => (false, [])
| a :: rest =>
  if ext.socketConnect a port then (true, [a])
  else
    let r := tryAddrs ext port rest
    (r.1, a :: r.2)

/-- Connection::Connect, lines 116-142: if the first character of the
host is a digit, connect directly to it as a literal address; otherwise
resolve the host and attempt each candidate in turn; emit a
socket-state-change (with the post-connect status, modelled from the
spec as Connected) exactly when the result is success.  `none` models
the uncaught std::out_of_range thrown by m_Server.at(0) on an empty
host. -/
def connect (ext : Externals) (server : String) (port : Nat) : Option ConnectResult :=
  match server.data with
  | [] => none
  | ch :: _ =>
    if ch.isDigit then
      let r := ext.socketConnect server port
      some { result := r
             events := if r then [Event.socketStateChange SocketStatus.Connected] else []
             attempts := [server]
             usedDns := false }
    else
      let addrs := ext.dnsResolve server
      if addrs.length = 0 then
        some { result := false, events := [], attempts := [], usedDns := true }
      else
        let t := tryAddrs ext port addrs
        some { result := t.1
               events := if t.1 then [Event.socketStateChange SocketStatus.Connected] else []
               attempts := t.2
               usedDns := true }

/-- Refinement predicate following the spec's words for claim C8: a host
string is a "literal numeric address" when it is non-empty and consists
only of decimal digits and dots (an IPv4 dotted-quad literal). -/
def specLiteralNumericAddress (s : String) : Prop :=
  s.data ≠ [] ∧ ∀ c ∈ s.data, c.isDigit ∨ c = '.'

instance : DecidablePred specLiteralNumericAddress := by
  intro s
  unfold specLiteralNumericAddress
  infer_instance

/-- Concrete externals with identity transforms, used to instantiate the
quantified theorems at concrete inputs. -/
def ext0 : Externals :=
  { aesEncrypt := fun _ bs => bs
    aesDecrypt := fun _ bs => bs
    zCompress := fun _ bs => bs
    zDecompress := fun _ bs _ => bs
    makeSharedSecret := fun _ _ => []
    responsePacketBytes := fun _ _ => []
    socketConnect := fun _ _ => true
    dnsResolve := fun _ => ["example"] }

/-- A dispatch function that routes every packet to a handler with no
effect, used to instantiate the quantified theorems. -/
def dispatch0 : HandlerState → List Nat → Nat → HandlerState × List Event :=
  fun hs _ _ => (hs, [])

/-- Error message recorded when the Yggdrasil join-server step fails: the
fixed string on a false result, the exception message on a throw. -/
def joinFailureMessage : YggResult → String
| .ok _ => "Failed to join server through Yggdrasil."
| .exn m => m

/-- Unfolding equation of frameLoop when the inner CreatePacket yields no
frame: the loop breaks at once. -/
theorem frameLoop_noFrame_eq (ext : Externals)
    (dispatch : HandlerState → List Nat → Nat → HandlerState × List Event)
    (hs : HandlerState) (b b1 : DataBuffer)
    (hcp : createPacket (hs.compressor.decompressFn ext) b = (FrameStep.noFrame, b1)) :
    frameLoop ext dispatch hs b = (hs, b1, []) := by
  rw [frameLoop]
  split
  · rename_i b1' hcp'
    rw [hcp] at hcp'
    simp only [Prod.mk.injEq] at hcp'
    rw [hcp'.2]
  · rename_i decoded len b1' hcp'
    rw [hcp] at hcp'
    simp at hcp'

/-- Unfolding equation of frameLoop when the inner CreatePacket yields a
frame: dispatch it and either recurse (loop condition holds) or stop. -/
theorem frameLoop_frame_eq (ext : Externals)
    (dispatch : HandlerState → List Nat → Nat → HandlerState × List Event)
    (hs : HandlerState) (b b1 : DataBuffer) (decoded : List Nat) (len : Nat)
    (hcp : createPacket (hs.compressor.decompressFn ext) b = (FrameStep.frame decoded len, b1)) :
    frameLoop ext dispatch hs b =
      (if b1.readOffset < b1.data.length ∧ 0 < b1.data.length then
        ((frameLoop ext dispatch (dispatch hs decoded len).1 b1).1,
         (frameLoop ext dispatch (dispatch hs decoded len).1 b1).2.1,
         Event.dispatched decoded len :: (dispatch hs decoded len).2 ++
           (frameLoop ext dispatch (dispatch hs decoded len).1 b1).2.2)
      else ((dispatch hs decoded len).1, b1, Event.dispatched decoded len :: (dispatch hs decoded len).2)) := by
  rw [frameLoop]
  split
  · rename_i b1' hcp'
    rw [hcp] at hcp'
    simp at hcp'
  · rename_i decoded' len' b1' hcp'
    rw [hcp] at hcp'
    simp only [Prod.mk.injEq, FrameStep.frame.injEq] at hcp'
    obtain ⟨⟨hd, hl⟩, hb⟩ := hcp'
    subst hd; subst hl; subst hb
    split <;> rfl

/-- The frame-assembly loop keeps the read cursor within the buffer. -/
theorem frameLoop_inv (ext : Externals)
    (dispatch : HandlerState → List Nat → Nat → HandlerState × List Event) :
    ∀ (n : Nat) (hs : HandlerState) (b : DataBuffer),
      b.data.length - b.readOffset ≤ n → b.readOffset ≤ b.data.length →
      (frameLoop ext dispatch hs b).2.1.readOffset ≤ (frameLoop ext dispatch hs b).2.1.data.length := by
  intro n
  induction n with
  | zero =>
    intro hs b hn h
    cases hcp : createPacket (hs.compressor.decompressFn ext) b with
    | mk fs b1 =>
      cases fs with
      | noFrame =>
        rw [frameLoop_noFrame_eq ext dispatch hs b b1 hcp]
        have hb := createPacket_noFrame _ _ _ hcp
        subst hb
        exact h
      | frame decoded len =>
        obtain ⟨hdata, hlt, hle⟩ := createPacket_frame _ _ _ _ _ hcp
        omega
  | succ n ih =>
    intro hs b hn h
    cases hcp : createPacket (hs.compressor.decompressFn ext) b with
    | mk fs b1 =>
      cases fs with
      | noFrame =>
        rw [frameLoop_noFrame_eq ext dispatch hs b b1 hcp]
        have hb := createPacket_noFrame _ _ _ hcp
        subst hb
        exact h
      | frame decoded len =>
        rw [frameLoop_frame_eq ext dispatch hs b b1 decoded len hcp]
        obtain ⟨hdata, hlt, hle⟩ := createPacket_frame _ _ _ _ _ hcp
        have hlen : b1.data.length = b.data.length := by rw [hdata]
        by_cases hc : b1.readOffset < b1.data.length ∧ 0 < b1.data.length
        · rw [if_pos hc]
          exact ih (dispatch hs decoded len).1 b1 (by omega) (by omega)
        · rw [if_neg hc]
          exact (by omega : b1.readOffset ≤ b1.data.length)

/-- Buffer compaction yields exactly the unconsumed suffix with the
cursor at zero, and the empty buffer when everything was consumed. -/
theorem compactBuffer_spec (b : DataBuffer) (h : b.readOffset ≤ b.data.length) :
    (compactBuffer b).readOffset = 0 ∧
    (compactBuffer b).data = b.data.drop b.readOffset ∧
    (b.readOffset = b.data.length → compactBuffer b = ⟨[], 0⟩) := by
  unfold compactBuffer
  by_cases hf : b.isFinished
  · rw [if_pos hf]
    unfold DataBuffer.isFinished at hf
    simp only [decide_eq_true_eq] at hf
    have : b.readOffset = b.data.length := by omega
    refine ⟨rfl, ?_, fun _ => rfl⟩
    rw [this, List.drop_length]
  · rw [if_neg hf]
    unfold DataBuffer.isFinished at hf
    simp only [decide_eq_true_eq, not_le] at hf
    by_cases h0 : b.readOffset ≠ 0
    · rw [if_pos h0]
      exact ⟨rfl, rfl, fun hc => absurd hc (by omega)⟩
    · rw [if_neg h0]
      push_neg at h0
      refine ⟨h0, ?_, fun hc => absurd hc (by omega)⟩
      rw [h0, List.drop_zero]

/-- The for-loop of Connect succeeds exactly when some candidate address
accepts the connection, and the attempted addresses are the ordered
prefix up to and including the first success. -/
theorem tryAddrs_spec (ext : Externals) (port : Nat) :
    ∀ l : List String,
      (tryAddrs ext port l).1 = l.any (fun a => ext.socketConnect a port) ∧
      (tryAddrs ext port l).2 =
        l.takeWhile (fun a => !ext.socketConnect a port) ++
          (l.dropWhile (fun a => !ext.socketConnect a port)).take 1 := by
  intro l
  induction l with
  | nil => simp [tryAddrs]
  | cons a rest ih =>
    by_cases hA : ext.socketConnect a port
    · simp [tryAddrs, hA]
    · simp only [tryAddrs, hA, if_false, List.any_cons, Bool.false_or]
      refine ⟨ih.1, ?_⟩
      simp only [List.takeWhile_cons, List.dropWhile_cons, hA]
      simp [ih.2]

/-- C1, counterexample: with the credential-validation step failing
(Authenticate returns false) and the join-server step succeeding, the
error "Failed to authenticate" is recorded and reported, yet the
JoinServer call is still performed — the claim's "step 3 is not
performed" is false on the code. -/
theorem authFailure_joinServer_still_called_cex :
    (authenticateClient (YggResult.ok false) (YggResult.ok true)).success = false ∧
    (authenticateClient (YggResult.ok false) (YggResult.ok true)).error = "Failed to authenticate" ∧
    "JoinServer" ∈ (authenticateClient (YggResult.ok false) (YggResult.ok true)).calls := by
  refine ⟨rfl, rfl, ?_⟩
  simp [authenticateClient]

/-- C1 (amended): if the identity-service credential validation step
fails with a rejection, the error "Failed to authenticate" is recorded,
but the join-server step (step 3) is still performed; the recorded error
is reported to listeners when the join-server step succeeds, and when
the join-server step also fails its failure message overwrites the
recorded error and is reported instead. -/
theorem authFailure_records_error_but_joins (j : YggResult) :
    "JoinServer" ∈ (authenticateClient (YggResult.ok false) j).calls ∧
    (authenticateClient (YggResult.ok false) (YggResult.ok true)).error = "Failed to authenticate" ∧
    (authenticateClient (YggResult.ok false) (YggResult.ok true)).success = false ∧
    (authenticateClient (YggResult.ok false) (YggResult.ok true)).events =
      [Event.authEvent false "Failed to authenticate"] ∧
    (j ≠ YggResult.ok true →
      (authenticateClient (YggResult.ok false) j).error = joinFailureMessage j ∧
      (authenticateClient (YggResult.ok false) j).events =
        [Event.authEvent false (joinFailureMessage j)]) := by
  refine ⟨?_, rfl, rfl, rfl, ?_⟩
  · cases j <;> simp [authenticateClient]
  · intro hj
    cases j with
    | ok bj =>
      cases bj with
      | true => exact absurd rfl hj
      | false => exact ⟨rfl, rfl⟩
    | exn m => exact ⟨rfl, rfl⟩

/-- C2 (confirmed): for every handled EncryptionRequest, whatever the
outcome of the two identity-service steps, the encryption response
packet (transformed by the still-current strategies) is handed to the
transport, and the connection's encrypter afterwards is the newly keyed
AES cipher, never the disabled one. -/
theorem encryptionRequest_always_responds (ext : Externals) (hs : HandlerState)
    (pubkey verify : String) (authResult joinResult : YggResult) :
    Event.sent (sendPacketBytes ext hs.encrypter hs.compressor (ext.responsePacketBytes pubkey verify)) ∈
      (handleEncryptionRequest ext hs pubkey verify authResult joinResult).2 ∧
    (handleEncryptionRequest ext hs pubkey verify authResult joinResult).1.encrypter =
      EncryptionStrategy.strategyAES (ext.makeSharedSecret pubkey verify) ∧
    (handleEncryptionRequest ext hs pubkey verify authResult joinResult).1.encrypter ≠
      EncryptionStrategy.strategyNone := by
  refine ⟨?_, rfl, by simp [handleEncryptionRequest]⟩
  simp [handleEncryptionRequest, sendPacket]

/-- C3 (confirmed): every handled Disconnect message disconnects the
transport and emits a socket-state-change to listeners, and emits
OnLogin(false) if and only if the protocol state is not Play. -/
theorem disconnect_emits_events (hs : HandlerState) :
    (handleDisconnect hs).1 = hs ∧
    Event.socketDisconnect ∈ (handleDisconnect hs).2 ∧
    Event.socketStateChange SocketStatus.Disconnected ∈ (handleDisconnect hs).2 ∧
    (Event.login false ∈ (handleDisconnect hs).2 ↔ hs.protocolState ≠ ProtocolState.Play) := by
  by_cases h : hs.protocolState = ProtocolState.Play <;>
    simp [handleDisconnect, h]

/-- C4 (confirmed): whenever the frame-length varint is incomplete, or
the decoded length exceeds the bytes remaining after the length field,
the frame-extraction step emits no frame and returns the buffer
unchanged, its read cursor at the pre-read position. -/
theorem insufficientData_keeps_buffer (d : List Nat → Nat → List Nat) (b : DataBuffer)
    (h : readVarInt (b.data.drop b.readOffset) = none ∨
         ∃ len k, readVarInt (b.data.drop b.readOffset) = some (len, k) ∧
           b.data.length - (b.readOffset + k) < len) :
    createPacket d b = (FrameStep.noFrame, b) := by
  unfold createPacket
  rcases h with h | ⟨len, k, hv, hlt⟩
  · rw [h]
  · rw [hv]
    simp only [DataBuffer.remaining]
    rw [if_pos hlt]

/-- C4, witness: an incomplete varint (a lone continuation byte) and an
oversized declared length (5 with one remaining byte) both leave the
buffer untouched and produce no frame. -/
theorem insufficientData_keeps_buffer_witness :
    createPacket (fun bs _ => bs) ⟨[128], 0⟩ = (FrameStep.noFrame, ⟨[128], 0⟩) ∧
    createPacket (fun bs _ => bs) ⟨[5, 1], 0⟩ = (FrameStep.noFrame, ⟨[5, 1], 0⟩) :=
  ⟨insufficientData_keeps_buffer _ _ (Or.inl (by decide)),
   insufficientData_keeps_buffer _ _ (Or.inr ⟨5, 1, by decide, by decide⟩)⟩

/-- C5 (confirmed): after the frame-assembly loop of a poll cycle that
actually ran (connected status, non-empty receive), the pending buffer is
exactly the unconsumed byte suffix of the loop's buffer with the cursor
reset to zero — in particular it is reset to empty when the cursor
consumed the entire buffer — so no buffered byte is lost or duplicated
and consumed (already-emitted) frames are dropped. -/
theorem pollCycle_compacts_buffer (ext : Externals)
    (dispatch : HandlerState → List Nat → Nat → HandlerState × List Event)
    (c : Conn) (recv : List Nat) (status : SocketStatus)
    (hst : status = SocketStatus.Connected) (hrecv : recv ≠ [])
    (hinv : c.handleBuffer.readOffset ≤ c.handleBuffer.data.length) :
    (pollStep ext dispatch c recv status).1.handleBuffer.readOffset = 0 ∧
    (pollStep ext dispatch c recv status).1.handleBuffer.data =
      (pollLoop ext dispatch c recv).2.1.data.drop (pollLoop ext dispatch c recv).2.1.readOffset ∧
    ((pollLoop ext dispatch c recv).2.1.readOffset = (pollLoop ext dispatch c recv).2.1.data.length →
      (pollStep ext dispatch c recv status).1.handleBuffer = ⟨[], 0⟩) ∧
    (pollStep ext dispatch c recv status).2 = (pollLoop ext dispatch c recv).2.2 := by
  subst hst
  have hlen : ¬ recv.length = 0 := by
    intro h
    exact hrecv (List.length_eq_zero.mp h)
  have hps : pollStep ext dispatch c recv SocketStatus.Connected =
      (⟨(pollLoop ext dispatch c recv).1, compactBuffer (pollLoop ext dispatch c recv).2.1⟩,
       (pollLoop ext dispatch c recv).2.2) := by
    unfold pollStep
    rw [if_neg (by simp), if_neg hlen]
  have hinv0 : (pollInitBuffer ext c recv).readOffset ≤ (pollInitBuffer ext c recv).data.length := by
    unfold pollInitBuffer
    simp only [List.length_append]
    omega
  have hloopinv : (pollLoop ext dispatch c recv).2.1.readOffset ≤
      (pollLoop ext dispatch c recv).2.1.data.length := by
    unfold pollLoop
    exact frameLoop_inv ext dispatch
      ((pollInitBuffer ext c recv).data.length - (pollInitBuffer ext c recv).readOffset)
      c.hs (pollInitBuffer ext c recv) le_rfl hinv0
  obtain ⟨h1, h2, h3⟩ := compactBuffer_spec _ hloopinv
  rw [hps]
  exact ⟨h1, h2, fun hc => by rw [show (Conn.mk (pollLoop ext dispatch c recv).1
    (compactBuffer (pollLoop ext dispatch c recv).2.1)).handleBuffer =
      compactBuffer (pollLoop ext dispatch c recv).2.1 from rfl, h3 hc], rfl⟩

/-- C5, witness: a cycle that receives one complete one-byte frame on an
empty pending buffer ends with the cursor at zero. -/
theorem pollCycle_compacts_buffer_witness :
    (([1, 65] : List Nat) ≠ []) ∧
    ((DataBuffer.mk [] 0).readOffset ≤ (DataBuffer.mk [] 0).data.length) ∧
    (pollStep ext0 dispatch0
      ⟨⟨ProtocolState.Login, EncryptionStrategy.strategyNone, CompressionStrategy.compressionNone⟩,
       ⟨[], 0⟩⟩ [1, 65] SocketStatus.Connected).1.handleBuffer.readOffset = 0 :=
  ⟨by decide, by decide,
   (pollCycle_compacts_buffer ext0 dispatch0 _ [1, 65] _ rfl (by decide) (by decide)).1⟩

/-- C6 (confirmed): a frame whose declared length is zero is a valid
frame: the extraction step emits it (with the empty wire payload handed
to decompression and on to the factory) instead of reporting that no
frame is present. -/
theorem zeroLength_frame_is_valid (d : List Nat → Nat → List Nat) (b : DataBuffer) (rest : List Nat)
    (h : b.data.drop b.readOffset = 0 :: rest) :
    createPacket d b = (FrameStep.frame (d [] 0) 0, ⟨b.data, b.readOffset + 1⟩) := by
  unfold createPacket
  rw [h]
  simp [readVarInt, DataBuffer.remaining]

/-- C6, witness: a buffer holding the single byte 0 yields one frame with
empty payload and declared length zero, and consumes the length byte. -/
theorem zeroLength_frame_is_valid_witness :
    (DataBuffer.mk [0] 0).data.drop (DataBuffer.mk [0] 0).readOffset = 0 :: [] ∧
    createPacket (fun bs _ => bs) ⟨[0], 0⟩ = (FrameStep.frame [] 0, ⟨[0], 1⟩) :=
  ⟨rfl, zeroLength_frame_is_valid (fun bs _ => bs) ⟨[0], 0⟩ [] rfl⟩

/-- C7 (confirmed): SendPacket hands the transport exactly the serialized
packet transformed first by the current compression strategy and then by
the current encryption strategy, each being the identity when disabled. -/
theorem sendPacket_compress_then_encrypt (ext : Externals) (hs : HandlerState)
    (serialized : List Nat) :
    sendPacket ext hs serialized =
      [Event.sent (hs.encrypter.encryptFn ext (hs.compressor.compressFn ext serialized))] ∧
    (hs.encrypter = EncryptionStrategy.strategyNone →
     hs.compressor = CompressionStrategy.compressionNone →
     sendPacket ext hs serialized = [Event.sent serialized]) := by
  refine ⟨rfl, fun he hc => ?_⟩
  simp [sendPacket, sendPacketBytes, he, hc, EncryptionStrategy.encryptFn,
    CompressionStrategy.compressFn]

/-- C7, witness: with both strategies disabled the transport receives the
serialized bytes unchanged. -/
theorem sendPacket_compress_then_encrypt_witness :
    (EncryptionStrategy.strategyNone = EncryptionStrategy.strategyNone) ∧
    sendPacket ext0
      ⟨ProtocolState.Login, EncryptionStrategy.strategyNone, CompressionStrategy.compressionNone⟩
      [7, 8] = [Event.sent [7, 8]] :=
  ⟨rfl, (sendPacket_compress_then_encrypt ext0 _ [7, 8]).2 rfl rfl⟩

/-- C8, counterexample: the host "1x" is not a literal numeric address,
yet Connect connects to it directly (its first character is a digit) and
never consults the resolver — refuting the claim's "otherwise resolves
the host" for this input. -/
theorem connect_nonliteral_digit_host_cex :
    ¬ specLiteralNumericAddress "1x" ∧
    connect ext0 "1x" 1 =
      some { result := true
             events := [Event.socketStateChange SocketStatus.Connected]
             attempts := ["1x"]
             usedDns := false } := by
  exact ⟨by decide, rfl⟩

/-- C8 (amended): Connect branches on whether the first character of the
host is a decimal digit (the code's test for a literal numeric address):
if so it connects directly to the host, otherwise it resolves the host
and attempts each candidate address in order until one succeeds or the
list is exhausted; it returns the outcome and emits a socket-state-change
event exactly when it succeeds. -/
theorem connect_branches_on_first_digit (ext : Externals) (server : String) (port : Nat)
    (ch : Char) (rest : List Char) (h : server.data = ch :: rest) :
    connect ext server port =
      some (if ch.isDigit then
        { result := ext.socketConnect server port
          events := if ext.socketConnect server port
            then [Event.socketStateChange SocketStatus.Connected] else []
          attempts := [server]
          usedDns := false }
      else
        { result := (ext.dnsResolve server).any fun a => ext.socketConnect a port
          events := if (ext.dnsResolve server).any (fun a => ext.socketConnect a port)
            then [Event.socketStateChange SocketStatus.Connected] else []
          attempts := (ext.dnsResolve server).takeWhile (fun a => !ext.socketConnect a port) ++
            ((ext.dnsResolve server).dropWhile fun a => !ext.socketConnect a port).take 1
          usedDns := true }) := by
  unfold connect
  rw [h]
  simp only []
  cases hdig : ch.isDigit with
  | true => rfl
  | false =>
    rcases hres : ext.dnsResolve server with _ | ⟨a, as⟩
    · rfl
    · have ht := tryAddrs_spec ext port (a :: as)
      rw [if_neg (show ¬((a :: as).length = 0) by simp), ht.1, ht.2]
      rfl

/-- C8, witness: a host starting with a letter is resolved; with the
concrete externals the first candidate accepts and a socket-state-change
is emitted. -/
theorem connect_branches_on_first_digit_witness :
    "abc".data = 'a' :: ['b', 'c'] ∧
    connect ext0 "abc" 1 =
      some { result := true
             events := [Event.socketStateChange SocketStatus.Connected]
             attempts := ["example"]
             usedDns := true } := by
  refine ⟨rfl, ?_⟩
  rw [connect_branches_on_first_digit ext0 "abc" 1 'a' ['b', 'c'] rfl]
  rfl

/-- C9 (confirmed): a poll cycle in which the transport delivers zero new
bytes while the socket is connected returns immediately: the connection
state (pending buffer, codecs, protocol state) is unchanged, nothing is
dispatched and no event is emitted — even if the pending buffer already
holds complete undispatched frames. -/
theorem poll_zero_bytes_is_noop (ext : Externals)
    (dispatch : HandlerState → List Nat → Nat → HandlerState × List Event) (c : Conn) :
    pollStep ext dispatch c [] SocketStatus.Connected = (c, []) := by
  unfold pollStep
  rw [if_neg (by simp)]
  rfl

/-- C10 (confirmed): when both the credential-validation step and the
join-server step fail, exactly one OnAuthentication event is emitted,
with success=false and the join-server failure message as its error; the
earlier "Failed to authenticate" error is overwritten and never
reported. -/
theorem bothSteps_fail_single_join_error (a j : YggResult)
    (ha : a ≠ YggResult.ok true) (hj : j ≠ YggResult.ok true) :
    (authenticateClient a j).events = [Event.authEvent false (joinFailureMessage j)] ∧
    (authenticateClient a j).success = false ∧
    (authenticateClient a j).error = joinFailureMessage j := by
  cases j with
  | ok bj =>
    cases bj with
    | false =>
      cases a with
      | ok ba =>
        cases ba with
        | false => exact ⟨rfl, rfl, rfl⟩
        | true => exact absurd rfl ha
      | exn m => exact ⟨rfl, rfl, rfl⟩
    | true => exact absurd rfl hj
  | exn mj =>
    cases a with
    | ok ba =>
      cases ba with
      | false => exact ⟨rfl, rfl, rfl⟩
      | true => exact absurd rfl ha
    | exn m => exact ⟨rfl, rfl, rfl⟩

/-- C10, witness: both steps returning false yields the single event
OnAuthentication(false, "Failed to join server through Yggdrasil."). -/
theorem bothSteps_fail_single_join_error_witness :
    (YggResult.ok false ≠ YggResult.ok true) ∧
    (authenticateClient (YggResult.ok false) (YggResult.ok false)).events =
      [Event.authEvent false "Failed to join server through Yggdrasil."] :=
  ⟨by decide,
   (bothSteps_fail_single_join_error (YggResult.ok false) (YggResult.ok false)
     (by decide) (by decide)).1⟩

/-- C1, witness: with a succeeding join step the join call is still made,
and with a failing join step (both steps rejecting) the reported error is
the join-server failure message, not "Failed to authenticate". -/
theorem authFailure_records_error_but_joins_witness :
    "JoinServer" ∈ (authenticateClient (YggResult.ok false) (YggResult.ok true)).calls ∧
    (YggResult.ok false ≠ YggResult.ok true) ∧
    (authenticateClient (YggResult.ok false) (YggResult.ok false)).error =
      "Failed to join server through Yggdrasil." :=
  ⟨(authFailure_records_error_but_joins (YggResult.ok true)).1,
   by decide,
   ((authFailure_records_error_but_joins (YggResult.ok false)).2.2.2.2 (by decide)).1⟩

/-- C2, witness: concrete instance with both identity-service steps
failing; the encrypter still ends keyed with the new shared secret. -/
theorem encryptionRequest_always_responds_witness :
    (handleEncryptionRequest ext0
      ⟨ProtocolState.Login, EncryptionStrategy.strategyNone, CompressionStrategy.compressionNone⟩
      "pk" "vt" (YggResult.ok false) (YggResult.ok false)).1.encrypter =
      EncryptionStrategy.strategyAES (ext0.makeSharedSecret "pk" "vt") :=
  (encryptionRequest_always_responds ext0
    ⟨ProtocolState.Login, EncryptionStrategy.strategyNone, CompressionStrategy.compressionNone⟩
    "pk" "vt" (YggResult.ok false) (YggResult.ok false)).2.1

/-- C3, witness: a Disconnect handled while the protocol state is Login
emits the login-failure event. -/
theorem disconnect_emits_events_witness :
    Event.login false ∈ (handleDisconnect
      ⟨ProtocolState.Login, EncryptionStrategy.strategyNone, CompressionStrategy.compressionNone⟩).2 :=
  ((disconnect_emits_events
    ⟨ProtocolState.Login, EncryptionStrategy.strategyNone, CompressionStrategy.compressionNone⟩).2.2.2).mpr
    (by decide)
